import Mathlib

set_option maxRecDepth 8000

/-!
Verification development for the backend_dev_task layout engine.

The Python sources (models.py, rafters.py, mounts.py, joints.py,
layout_service.py, config.py) are embedded shallowly: Python floats become
exact rationals, the two unbounded while loops of RafterFactory.BuildGrid
take an explicit fuel argument (running out of fuel is a distinguished
error, standing for a Python run that never finishes), and raised
LayoutValidationError / ValueError conditions become an error sum type.
Python round(v, 4) is modelled as round-half-up at 4 decimal places; it
agrees with Python's round-half-even everywhere except at exact half-way
points, and no computation in this development lands on one.
-/

/-- models.PanelDimensions: fixed size applied to every panel. -/
structure PanelDimensions where
  width : ℚ
  height : ℚ
deriving DecidableEq

/-- models.Panel: immutable axis-aligned rectangle. -/
structure Panel where
  x : ℚ
  y : ℚ
  width : ℚ
  height : ℚ
deriving DecidableEq

/-- models.Panel.RightEdge. -/
def Panel.RightEdge (p : Panel) : ℚ := p.x + p.width

/-- models.Panel.BottomEdge. -/
def Panel.BottomEdge (p : Panel) : ℚ := p.y + p.height

/-- models.Mount: a fastening point. -/
structure Mount where
  x : ℚ
  y : ℚ
deriving DecidableEq

/-- models.Joint: a seam point. -/
structure Joint where
  x : ℚ
  y : ℚ
deriving DecidableEq

/-- models.LayoutResult. -/
structure LayoutResult where
  mounts : List Mount
  joints : List Joint
deriving DecidableEq

/-- models.LayoutContext. -/
structure LayoutContext where
  result : LayoutResult
  panels : List Panel
  rafters : List ℚ
deriving DecidableEq

/-- config.PanelSettings. -/
structure PanelSettings where
  width : ℚ
  height : ℚ
deriving DecidableEq

/-- config.RafterSettings. -/
structure RafterSettings where
  spacing : ℚ
  edge_clearance : ℚ
deriving DecidableEq

/-- config.MountSettings. -/
structure MountSettings where
  span_limit : ℚ
  cantilever_limit : ℚ
  edge_clearance : ℚ
deriving DecidableEq

/-- config.JointSettings. -/
structure JointSettings where
  horizontal_gap_threshold : ℚ
  vertical_tolerance : ℚ
deriving DecidableEq

/-- config.ValidationSettings. -/
structure ValidationSettings where
  allow_negative_coordinates : Bool
  allow_duplicates : Bool
  allow_overlaps : Bool
  coordinate_tolerance : ℚ
deriving DecidableEq

/-- config.LayoutConfig. -/
structure LayoutConfig where
  panel : PanelSettings
  rafters : RafterSettings
  mounts : MountSettings
  joints : JointSettings
  validation : ValidationSettings
deriving DecidableEq

/-- Default configuration values of config.py (all sections missing). -/
def defaultConfig : LayoutConfig :=
  ⟨⟨44.7, 71.1⟩, ⟨16, 2⟩, ⟨48, 16, 2⟩, ⟨1, 0.5⟩, ⟨false, false, false, 1/10000⟩⟩

/-- The distinguishable raised conditions: the LayoutValidationError messages
of the engine, the ValueError of RafterFactory.BuildGrid, and fuel exhaustion
standing for a while loop that never exits. -/
inductive LayoutError where
  | missingCoordinate : LayoutError
  | negativeCoordinate : ℚ → ℚ → LayoutError
  | duplicatePanel : ℚ → ℚ → LayoutError
  | overlappingPanels : ℚ → ℚ → ℚ → ℚ → LayoutError
  | noPanels : LayoutError
  | noRafterInSpan : ℚ → ℚ → LayoutError
  | leftCantileverExceeded : ℚ → LayoutError
  | rightCantileverExceeded : ℚ → LayoutError
  | spanLimitExceeded : ℚ → LayoutError
  | minExceedsMax : LayoutError
  | outOfFuel : LayoutError
deriving DecidableEq

/-- Python round(q, 4) over ℚ (round-half-up at half-way points). -/
def roundTo4 (q : ℚ) : ℚ := (round (q * 10000) : ℚ) / 10000

/-- rafters.RafterGrid. -/
structure RafterGrid where
  positions : List ℚ
deriving DecidableEq

/-- rafters.RafterGrid.PositionsInRange. -/
def RafterGrid.PositionsInRange (g : RafterGrid) (start_x end_x : ℚ) : List ℚ :=
  g.positions.filter (fun v => decide (start_x - 1/1000000 ≤ v ∧ v ≤ end_x + 1/1000000))

/-- Backward anchoring loop of rafters.RafterFactory.BuildGrid
(while first_rafter - spacing > min_x - spacing * 2: first_rafter -= spacing),
with explicit fuel; none models a run that never exits the loop. -/
def descendLoop (spacing min_x : ℚ) : ℕ → ℚ → Option ℚ
  | 0, first =>
      if first - spacing > min_x - spacing * 2 then none else some first
  | n + 1, first =>
      if first - spacing > min_x - spacing * 2 then descendLoop spacing min_x n (first - spacing)
      else some first

/-- Forward collection loop of rafters.RafterFactory.BuildGrid
(while current <= limit: positions.append(round(current, 4)); current += spacing),
with explicit fuel; none models a run that never exits the loop. -/
def ascendLoop (spacing limit : ℚ) : ℕ → ℚ → Option (List ℚ)
  | 0, current => if current ≤ limit then none else some []
  | n + 1, current =>
      if current ≤ limit then
        (ascendLoop spacing limit n (current + spacing)).map (fun rest => roundTo4 current :: rest)
      else some []

/-- rafters.RafterFactory.BuildGrid. -/
def BuildGrid (spacing edge_clearance : ℚ) (fuel : ℕ) (min_x max_x : ℚ) :
    Except LayoutError RafterGrid :=
  if min_x > max_x then .error .minExceedsMax
  else
    match descendLoop spacing min_x fuel (min_x + edge_clearance) with
    | none => .error .outOfFuel
    | some first =>
        match ascendLoop spacing (max_x + spacing * 2) fuel first with
        | none => .error .outOfFuel
        | some ps => .ok ⟨ps⟩

/-- One raw panel spec: a mapping that may or may not carry numeric x and y
(extra keys of the Python mapping are irrelevant to the engine). -/
structure PanelSpec where
  x : Option ℚ
  y : Option ℚ
deriving DecidableEq

/-- layout_service.PanelFactory._QuantizeCoordinate. -/
def quantize (tolerance x_value y_value : ℚ) : ℤ × ℤ :=
  (round (x_value / max tolerance (1/1000000000)),
   round (y_value / max tolerance (1/1000000000)))

/-- Per-spec loop of layout_service.PanelFactory.BuildPanels: missing-key,
bounds and duplicate checks, accumulating the quantized positions seen so far. -/
def buildLoop (dims : PanelDimensions) (v : ValidationSettings) :
    List PanelSpec → List (ℤ × ℤ) → Except LayoutError (List Panel)
  | [], _ => .ok []
  | s :: rest, seen =>
      match s.x, s.y with
      | some xv, some yv =>
          if v.allow_negative_coordinates = false ∧
              (xv < -v.coordinate_tolerance ∨ yv < -v.coordinate_tolerance) then
            .error (.negativeCoordinate xv yv)
          else if v.allow_duplicates then
            match buildLoop dims v rest seen with
            | .error e => .error e
            | .ok ps => .ok (⟨xv, yv, dims.width, dims.height⟩ :: ps)
          else if quantize v.coordinate_tolerance xv yv ∈ seen then
            .error (.duplicatePanel xv yv)
          else
            match buildLoop dims v rest (quantize v.coordinate_tolerance xv yv :: seen) with
            | .error e => .error e
            | .ok ps => .ok (⟨xv, yv, dims.width, dims.height⟩ :: ps)
      | _, _ => .error .missingCoordinate

/-- layout_service.PanelFactory._RectanglesOverlap. -/
def RectanglesOverlap (tolerance : ℚ) (a b : Panel) : Bool :=
  !(decide (a.RightEdge ≤ b.x + tolerance ∨ b.RightEdge ≤ a.x + tolerance)
    || decide (a.BottomEdge ≤ b.y + tolerance ∨ b.BottomEdge ≤ a.y + tolerance))

/-- Inner loop of layout_service.PanelFactory._ValidateNoOverlap: first panel
after p (in list order) that overlaps p. -/
def findOverlap (tolerance : ℚ) (p : Panel) : List Panel → Option Panel
  | [] => none
  | q :: rest => if RectanglesOverlap tolerance p q then some q else findOverlap tolerance p rest

/-- layout_service.PanelFactory._ValidateNoOverlap. -/
def validateNoOverlap (tolerance : ℚ) : List Panel → Except LayoutError Unit
  | [] => .ok ()
  | p :: rest =>
      match findOverlap tolerance p rest with
      | some q => .error (.overlappingPanels p.x p.y q.x q.y)
      | none => validateNoOverlap tolerance rest

/-- The (y, x) sort key order of layout_service.PanelFactory.BuildPanels. -/
def panelYX (p q : Panel) : Prop := p.y < q.y ∨ (p.y = q.y ∧ p.x ≤ q.x)

instance : DecidableRel panelYX := fun p q => by unfold panelYX; infer_instance

instance : IsTotal Panel panelYX :=
  ⟨fun p q => by
    unfold panelYX
    rcases lt_trichotomy p.y q.y with h | h | h
    · exact Or.inl (Or.inl h)
    · rcases le_total p.x q.x with hx | hx
      · exact Or.inl (Or.inr ⟨h, hx⟩)
      · exact Or.inr (Or.inr ⟨h.symm, hx⟩)
    · exact Or.inr (Or.inl h)⟩

instance : IsTrans Panel panelYX :=
  ⟨fun p q r hpq hqr => by
    unfold panelYX at *
    rcases hpq with h | ⟨hy, hx⟩ <;> rcases hqr with h' | ⟨hy', hx'⟩
    · exact Or.inl (h.trans h')
    · exact Or.inl (hy' ▸ h)
    · exact Or.inl (hy ▸ h')
    · exact Or.inr ⟨hy.trans hy', hx.trans hx'⟩⟩

/-- The by-x order used on each row in joints.JointCalculator.CalculateJoints. -/
def panelByX (p q : Panel) : Prop := p.x ≤ q.x

instance : DecidableRel panelByX := fun p q => by unfold panelByX; infer_instance

instance : IsTotal Panel panelByX := ⟨fun p q => le_total p.x q.x⟩

instance : IsTrans Panel panelByX := ⟨fun _ _ _ h h' => le_trans h h'⟩

/-- The (y, x) output order of joints.JointCalculator.CalculateJoints. -/
def jointYX (j k : Joint) : Prop := j.y < k.y ∨ (j.y = k.y ∧ j.x ≤ k.x)

instance : DecidableRel jointYX := fun j k => by unfold jointYX; infer_instance

instance : IsTotal Joint jointYX :=
  ⟨fun p q => by
    unfold jointYX
    rcases lt_trichotomy p.y q.y with h | h | h
    · exact Or.inl (Or.inl h)
    · rcases le_total p.x q.x with hx | hx
      · exact Or.inl (Or.inr ⟨h, hx⟩)
      · exact Or.inr (Or.inr ⟨h.symm, hx⟩)
    · exact Or.inr (Or.inl h)⟩

instance : IsTrans Joint jointYX :=
  ⟨fun p q r hpq hqr => by
    unfold jointYX at *
    rcases hpq with h | ⟨hy, hx⟩ <;> rcases hqr with h' | ⟨hy', hx'⟩
    · exact Or.inl (h.trans h')
    · exact Or.inl (hy' ▸ h)
    · exact Or.inl (hy ▸ h')
    · exact Or.inr ⟨hy.trans hy', hx.trans hx'⟩⟩

/-- The (y, x) order on mounts (used only to state sortedness facts). -/
def mountYX (m n : Mount) : Prop := m.y < n.y ∨ (m.y = n.y ∧ m.x ≤ n.x)

instance : DecidableRel mountYX := fun m n => by unfold mountYX; infer_instance

/-- layout_service.PanelFactory.BuildPanels: per-spec validation, overlap
validation, then the stable (y, x) sort (Python list.sort is stable; so is
insertion sort). -/
def BuildPanels (dims : PanelDimensions) (v : ValidationSettings) (specs : List PanelSpec) :
    Except LayoutError (List Panel) :=
  match buildLoop dims v specs [] with
  | .error e => .error e
  | .ok panels =>
      match (if v.allow_overlaps then Except.ok () else validateNoOverlap v.coordinate_tolerance panels) with
      | .error e => .error e
      | .ok _ => .ok (List.insertionSort panelYX panels)

/-- mounts.MountCalculator._CalculatePanelMounts. -/
def CalculatePanelMounts (ms : MountSettings) (panel : Panel) (grid : RafterGrid) :
    Except LayoutError (List Mount) :=
  match grid.PositionsInRange (panel.x + ms.edge_clearance) (panel.RightEdge - ms.edge_clearance) with
  | [] => .error (.noRafterInSpan (panel.x + ms.edge_clearance) (panel.RightEdge - ms.edge_clearance))
  | r0 :: rest =>
      if r0 - panel.x - ms.edge_clearance > ms.cantilever_limit then
        .error (.leftCantileverExceeded panel.x)
      else if panel.RightEdge - ms.edge_clearance - (r0 :: rest).getLast (List.cons_ne_nil r0 rest)
          > ms.cantilever_limit then
        .error (.rightCantileverExceeded panel.x)
      else if ((r0 :: rest).zip rest).any
          (fun pr => decide (pr.2 - pr.1 > ms.span_limit + 1/1000000)) then
        .error (.spanLimitExceeded panel.x)
      else
        .ok ((r0 :: rest).map (fun v => ⟨v, panel.y⟩)
              ++ (r0 :: rest).map (fun v => ⟨v, panel.BottomEdge⟩))

/-- mounts.MountCalculator.CalculateMounts. -/
def CalculateMounts (ms : MountSettings) : List Panel → RafterGrid → Except LayoutError (List Mount)
  | [], _ => .ok []
  | p :: rest, grid =>
      match CalculatePanelMounts ms p grid with
      | .error e => .error e
      | .ok pm =>
          match CalculateMounts ms rest grid with
          | .error e => .error e
          | .ok more => .ok (pm ++ more)

/-- joints._FindRowKey: first row key within tolerance, in insertion order. -/
def FindRowKey (row_map : List (ℚ × List Panel)) (y_value tolerance : ℚ) : ℚ :=
  match row_map.find? (fun kv => decide (|kv.1 - y_value| ≤ tolerance)) with
  | some kv => kv.1
  | none => y_value

/-- row_map.setdefault(row_key, []).append(panel) on an insertion-ordered map. -/
def addToRow : List (ℚ × List Panel) → ℚ → Panel → List (ℚ × List Panel)
  | [], key, p => [(key, [p])]
  | (k, ps) :: rest, key, p =>
      if k = key then (k, ps ++ [p]) :: rest else (k, ps) :: addToRow rest key p

/-- Row grouping loop of joints.JointCalculator.CalculateJoints. -/
def buildRowMap (tolerance : ℚ) : List Panel → List (ℚ × List Panel) → List (ℚ × List Panel)
  | [], m => m
  | p :: rest, m => buildRowMap tolerance rest (addToRow m (FindRowKey m p.y tolerance) p)

/-- Joints contributed by one adjacent pair (left, right) of a row: none when
the gap reaches the threshold, else the top and bottom seam joints. -/
def rowPairJoints (js : JointSettings) (row_key : ℚ) (left right : Panel) : List Joint :=
  if right.x - left.RightEdge ≥ js.horizontal_gap_threshold then []
  else
    [⟨roundTo4 ((left.RightEdge + right.x) / 2), roundTo4 row_key⟩,
     ⟨roundTo4 ((left.RightEdge + right.x) / 2), roundTo4 (row_key + left.height)⟩]

/-- Keyed insertion into the joints dict: a joint equals its own key, so a
repeated key leaves the dict unchanged. -/
def insertJoint (acc : List Joint) (j : Joint) : List Joint :=
  if j ∈ acc then acc else acc ++ [j]

/-- joints.JointCalculator.CalculateJoints. -/
def CalculateJoints (js : JointSettings) (panels : List Panel) : List Joint :=
  let row_map := buildRowMap js.vertical_tolerance panels []
  let emitted := row_map.flatMap (fun kv =>
    let row_sorted := List.insertionSort panelByX kv.2
    (row_sorted.zip row_sorted.tail).flatMap (fun lr => rowPairJoints js kv.1 lr.1 lr.2))
  List.insertionSort jointYX (emitted.foldl insertJoint [])

/-- layout_service.LayoutCalculator.CalculateLayoutDetailed. -/
def CalculateLayoutDetailed (config : LayoutConfig) (fuel : ℕ) (specs : List PanelSpec) :
    Except LayoutError LayoutContext :=
  match BuildPanels ⟨config.panel.width, config.panel.height⟩ config.validation specs with
  | .error e => .error e
  | .ok [] => .error .noPanels
  | .ok (p :: rest) =>
      match BuildGrid config.rafters.spacing config.rafters.edge_clearance fuel
          (rest.foldl (fun m q => min m q.x) p.x)
          (rest.foldl (fun m q => max m q.RightEdge) p.RightEdge) with
      | .error e => .error e
      | .ok grid =>
          match CalculateMounts config.mounts (p :: rest) grid with
          | .error e => .error e
          | .ok mounts =>
              .ok ⟨⟨mounts, CalculateJoints config.joints (p :: rest)⟩, p :: rest, grid.positions⟩

/-- layout_service.LayoutCalculator.CalculateLayout. -/
def CalculateLayout (config : LayoutConfig) (fuel : ℕ) (specs : List PanelSpec) :
    Except LayoutError LayoutResult :=
  match CalculateLayoutDetailed config fuel specs with
  | .error e => .error e
  | .ok ctx => .ok ctx.result

/-- Shorthand for a complete spec mapping with both coordinates present. -/
def spec (a b : ℚ) : PanelSpec := ⟨some a, some b⟩

/-- The mount list one panel contributes on the success path of
mounts.MountCalculator._CalculatePanelMounts: one top-edge mount and one
bottom-edge mount per selected rafter, tops first. -/
def panelMounts (ms : MountSettings) (grid : RafterGrid) (p : Panel) : List Mount :=
  (grid.PositionsInRange (p.x + ms.edge_clearance) (p.RightEdge - ms.edge_clearance)).map
      (fun v => ⟨v, p.y⟩)
    ++ (grid.PositionsInRange (p.x + ms.edge_clearance) (p.RightEdge - ms.edge_clearance)).map
      (fun v => ⟨v, p.BottomEdge⟩)

/-- The panel a complete spec builds (getD is only read under completeness). -/
def toPanel (dims : PanelDimensions) (s : PanelSpec) : Panel :=
  ⟨s.x.getD 0, s.y.getD 0, dims.width, dims.height⟩

/-! Concrete scenario inputs of the spec's test scenarios. -/

/-- The default configuration with rafter spacing overridden to 200.0. -/
def configC1 : LayoutConfig :=
  ⟨⟨44.7, 71.1⟩, ⟨200, 2⟩, ⟨48, 16, 2⟩, ⟨1, 0.5⟩, ⟨false, false, false, 1/10000⟩⟩

/-- Four panels forming a 2x2 grid at exact panel-dimension offsets. -/
def specs2x2 : List PanelSpec := [spec 0 0, spec 44.7 0, spec 0 71.1, spec 44.7 71.1]

/-- Two panels in one row at horizontal gap exactly 1.0 (45.7 - 44.7). -/
def specsTwoAcross : List PanelSpec := [spec 0 0, spec 45.7 0]

/-- The same two panels, given in swapped order. -/
def specsTwoAcrossSwapped : List PanelSpec := [spec 45.7 0, spec 0 0]

/-! Rounding lemmas. -/

lemma round_mono_q {a b : ℚ} (h : a ≤ b) : round a ≤ round b := by
  rw [round_eq, round_eq]
  exact Int.floor_mono (by linarith)

lemma roundTo4_le (q : ℚ) : roundTo4 q ≤ q + 1/20000 := by
  unfold roundTo4
  rw [round_eq]
  have h : ((⌊q * 10000 + 1/2⌋ : ℤ) : ℚ) ≤ q * 10000 + 1/2 := Int.floor_le _
  push_cast
  linarith

lemma roundTo4_mono {a b : ℚ} (h : a ≤ b) : roundTo4 a ≤ roundTo4 b := by
  unfold roundTo4
  have hr : round (a * 10000) ≤ round (b * 10000) := round_mono_q (by linarith)
  have hc : ((round (a * 10000) : ℤ) : ℚ) ≤ ((round (b * 10000) : ℤ) : ℚ) := by
    exact_mod_cast hr
  linarith

lemma roundTo4_lt {a b : ℚ} (h : a + 1/10000 ≤ b) : roundTo4 a < roundTo4 b := by
  unfold roundTo4
  have h1 : round (a * 10000) + 1 = round (a * 10000 + 1) := by
    have := round_add_int (a * 10000) 1
    push_cast at this
    omega
  have h2 : round (a * 10000 + 1) ≤ round (b * 10000) := round_mono_q (by linarith)
  have hc : ((round (a * 10000) : ℤ) : ℚ) + 1 ≤ ((round (b * 10000) : ℤ) : ℚ) := by
    exact_mod_cast h1 ▸ h2
  linarith

/-! Lemmas about the two BuildGrid loops. -/

lemma ascendLoop_some_sorted_le {s lim : ℚ} (hs : 0 < s) :
    ∀ (n : ℕ) (c : ℚ) (l : List ℚ), ascendLoop s lim n c = some l →
      l.Sorted (· ≤ ·) ∧ ∀ x ∈ l, roundTo4 c ≤ x := by
  intro n
  induction n with
  | zero =>
      intro c l h
      unfold ascendLoop at h
      split at h
      · exact absurd h (by simp)
      · obtain rfl : ([] : List ℚ) = l := Option.some.inj h
        simp
  | succ n ih =>
      intro c l h
      unfold ascendLoop at h
      split at h
      · rw [Option.map_eq_some'] at h
        obtain ⟨rest, hrest, hl⟩ := h
        obtain ⟨hsorted, hbound⟩ := ih (c + s) rest hrest
        subst hl
        constructor
        · rw [List.sorted_cons]
          exact ⟨fun b hb => le_trans (roundTo4_mono (by linarith)) (hbound b hb), hsorted⟩
        · intro x hx
          rcases List.mem_cons.mp hx with hx | hx
          · exact le_of_eq hx.symm
          · exact le_trans (roundTo4_mono (by linarith)) (hbound x hx)
      · obtain rfl : ([] : List ℚ) = l := Option.some.inj h
        simp

lemma ascendLoop_some_sorted_lt {s lim : ℚ} (hs : 1/10000 ≤ s) :
    ∀ (n : ℕ) (c : ℚ) (l : List ℚ), ascendLoop s lim n c = some l →
      l.Sorted (· < ·) ∧ ∀ x ∈ l, roundTo4 c ≤ x := by
  intro n
  induction n with
  | zero =>
      intro c l h
      unfold ascendLoop at h
      split at h
      · exact absurd h (by simp)
      · obtain rfl : ([] : List ℚ) = l := Option.some.inj h
        simp
  | succ n ih =>
      intro c l h
      unfold ascendLoop at h
      split at h
      · rw [Option.map_eq_some'] at h
        obtain ⟨rest, hrest, hl⟩ := h
        obtain ⟨hsorted, hbound⟩ := ih (c + s) rest hrest
        subst hl
        constructor
        · rw [List.sorted_cons]
          exact ⟨fun b hb => lt_of_lt_of_le (roundTo4_lt (by linarith)) (hbound b hb), hsorted⟩
        · intro x hx
          rcases List.mem_cons.mp hx with hx | hx
          · exact le_of_eq hx.symm
          · exact le_trans (le_of_lt (roundTo4_lt (by linarith))) (hbound x hx)
      · obtain rfl : ([] : List ℚ) = l := Option.some.inj h
        simp

lemma descendLoop_total {s mn : ℚ} (hs : 0 < s) :
    ∀ (n : ℕ) (first : ℚ), first ≤ mn - s + n * s → mn - s * 2 < first →
      ∃ f, descendLoop s mn n first = some f ∧ mn - s * 2 < f ∧ f ≤ mn - s := by
  intro n
  induction n with
  | zero =>
      intro first h1 h2
      refine ⟨first, ?_, h2, by simpa using h1⟩
      unfold descendLoop
      rw [if_neg]
      simp only [Nat.cast_zero, zero_mul, add_zero] at h1
      intro hcon
      linarith
  | succ n ih =>
      intro first h1 h2
      unfold descendLoop
      by_cases hc : first - s > mn - s * 2
      · rw [if_pos hc]
        push_cast at h1
        exact ih (first - s) (by push_cast; linarith) (by linarith)
      · rw [if_neg hc]
        push_neg at hc
        exact ⟨first, rfl, h2, by linarith⟩

lemma ascendLoop_total {s lim : ℚ} (hs : 0 < s) :
    ∀ (n : ℕ) (c : ℚ), lim < c + n * s → ∃ l, ascendLoop s lim n c = some l := by
  intro n
  induction n with
  | zero =>
      intro c h
      simp only [Nat.cast_zero, zero_mul, add_zero] at h
      refine ⟨[], ?_⟩
      unfold ascendLoop
      rw [if_neg (by linarith)]
  | succ n ih =>
      intro c h
      unfold ascendLoop
      by_cases hc : c ≤ lim
      · rw [if_pos hc]
        push_cast at h
        obtain ⟨l, hl⟩ := ih (c + s) (by push_cast; linarith)
        exact ⟨roundTo4 c :: l, by rw [hl]; rfl⟩
      · rw [if_neg hc]
        exact ⟨[], rfl⟩

lemma ascendLoop_some_head {s lim : ℚ} {n : ℕ} {c : ℚ} {l : List ℚ}
    (h : ascendLoop s lim n c = some l) (hc : c ≤ lim) :
    ∃ rest, l = roundTo4 c :: rest := by
  cases n with
  | zero =>
      unfold ascendLoop at h
      rw [if_pos hc] at h
      exact absurd h (by simp)
  | succ n =>
      unfold ascendLoop at h
      rw [if_pos hc] at h
      rw [Option.map_eq_some'] at h
      obtain ⟨rest, _, hl⟩ := h
      exact ⟨rest, hl.symm⟩

lemma descendLoop_nonpos_none {s mn : ℚ} (hs : s ≤ 0) :
    ∀ (n : ℕ) (first : ℚ), first - s > mn - s * 2 → descendLoop s mn n first = none := by
  intro n
  induction n with
  | zero =>
      intro f hc
      unfold descendLoop
      rw [if_pos hc]
  | succ n ih =>
      intro f hc
      unfold descendLoop
      rw [if_pos hc]
      exact ih _ (by linarith)

lemma ascendLoop_nonpos_none {s lim : ℚ} (hs : s ≤ 0) :
    ∀ (n : ℕ) (c : ℚ), c ≤ lim → ascendLoop s lim n c = none := by
  intro n
  induction n with
  | zero =>
      intro c hc
      unfold ascendLoop
      rw [if_pos hc]
  | succ n ih =>
      intro c hc
      unfold ascendLoop
      rw [if_pos hc, ih (c + s) (by linarith)]
      rfl

lemma ascendLoop_some_nonpos {s lim : ℚ} {n : ℕ} {c : ℚ} {l : List ℚ}
    (hs : s ≤ 0) (h : ascendLoop s lim n c = some l) : l = [] := by
  cases n with
  | zero =>
      unfold ascendLoop at h
      split at h
      · exact absurd h (by simp)
      · exact (Option.some.inj h).symm
  | succ n =>
      unfold ascendLoop at h
      split at h
      · rename_i hc
        rw [ascendLoop_nonpos_none hs n (c + s) (by linarith)] at h
        exact absurd h (by simp)
      · exact (Option.some.inj h).symm

lemma BuildGrid_ok_inv {s ec : ℚ} {fuel : ℕ} {mn mx : ℚ} {g : RafterGrid}
    (h : BuildGrid s ec fuel mn mx = .ok g) :
    mn ≤ mx ∧ ∃ f, descendLoop s mn fuel (mn + ec) = some f ∧
      ascendLoop s (mx + s * 2) fuel f = some g.positions := by
  unfold BuildGrid at h
  split at h
  · exact absurd h (by simp)
  · rename_i hgt
    split at h
    · exact absurd h (by simp)
    · rename_i f hf
      split at h
      · exact absurd h (by simp)
      · rename_i ps hps
        refine ⟨not_lt.mp hgt, f, hf, ?_⟩
        obtain rfl : RafterGrid.mk ps = g := Except.ok.inj h
        exact hps

lemma BuildGrid_ok_sorted_le {s ec : ℚ} {fuel : ℕ} {mn mx : ℚ} {g : RafterGrid}
    (hs : 0 < s) (h : BuildGrid s ec fuel mn mx = .ok g) :
    g.positions.Sorted (· ≤ ·) := by
  obtain ⟨-, f, -, ha⟩ := BuildGrid_ok_inv h
  exact (ascendLoop_some_sorted_le hs fuel f g.positions ha).1

lemma BuildGrid_nonpos_empty {s ec : ℚ} {fuel : ℕ} {mn mx : ℚ} {g : RafterGrid}
    (hs : s ≤ 0) (h : BuildGrid s ec fuel mn mx = .ok g) : g.positions = [] := by
  obtain ⟨-, f, -, ha⟩ := BuildGrid_ok_inv h
  exact ascendLoop_some_nonpos hs ha


/-- Evaluation of the C1 scenario: default configuration except spacing 200,
one panel at (3, 0). -/
lemma layoutC1_eval :
    CalculateLayout configC1 20 [spec 3 0] = .error (.rightCantileverExceeded 3) := by
  norm_num [CalculateLayout, CalculateLayoutDetailed, BuildPanels, buildLoop, quantize,
    validateNoOverlap, findOverlap, RectanglesOverlap, configC1, spec,
    List.insertionSort, List.orderedInsert, panelYX,
    BuildGrid, descendLoop, ascendLoop, roundTo4, round_eq,
    CalculateMounts, CalculatePanelMounts, RafterGrid.PositionsInRange,
    Panel.RightEdge, Panel.BottomEdge, List.filter, max_def]

/-- Evaluation of BuildGrid at spacing 1/100000, clearance 0, extent [0, 0]:
all four emitted positions round to the same value 0. -/
lemma gridTiny_eval : BuildGrid (1/100000) 0 10 0 0 = .ok ⟨[0, 0, 0, 0]⟩ := by
  norm_num [BuildGrid, descendLoop, ascendLoop, roundTo4, round_eq]

/-- C1 (counterexample): with spacing 200.0 and the single panel at (3.0, 0.0),
the allowed rafter window [5, 45.7] does contain the grid position 5 (so the
no-rafter-in-span check passes), and the raised error is the right-cantilever
error, not the no-rafter-in-span error the claim states. -/
theorem C1_counterexample :
    BuildGrid 200 2 20 3 47.7 = .ok ⟨[-395, -195, 5, 205, 405]⟩ ∧
    (5 : ℚ) ∈ RafterGrid.PositionsInRange ⟨[-395, -195, 5, 205, 405]⟩ (3 + 2) (47.7 - 2) ∧
    CalculateLayout configC1 20 [spec 3 0] = .error (.rightCantileverExceeded 3) := by
  refine ⟨?_, ?_, layoutC1_eval⟩
  · norm_num [BuildGrid, descendLoop, ascendLoop, roundTo4, round_eq]
  · norm_num [RafterGrid.PositionsInRange, List.filter]

/-- C1 (amended): with the default configuration except rafter spacing 200.0,
CalculateLayout on the single panel spec (3.0, 0.0) raises a
LayoutValidationError, namely the right-cantilever-limit error (the rafter at
x = 5 sits inside the panel's window, leaving a right cantilever of 40.7 > 16). -/
theorem C1_theorem :
    CalculateLayout configC1 20 [spec 3 0] = .error (.rightCantileverExceeded 3) :=
  layoutC1_eval

/-- Evaluation of the 2x2 scenario's joint list. -/
lemma layout2x2_joints_eval :
    (CalculateLayout defaultConfig 20 specs2x2).map LayoutResult.joints
      = .ok [⟨44.7, 0⟩, ⟨44.7, 71.1⟩, ⟨44.7, 142.2⟩] := by
  norm_num [CalculateLayout, CalculateLayoutDetailed, BuildPanels, buildLoop, quantize,
    validateNoOverlap, findOverlap, RectanglesOverlap, defaultConfig, spec, specs2x2,
    List.insertionSort, List.orderedInsert, panelYX, panelByX, jointYX,
    BuildGrid, descendLoop, ascendLoop, roundTo4, round_eq,
    CalculateMounts, CalculatePanelMounts, RafterGrid.PositionsInRange,
    CalculateJoints, buildRowMap, addToRow, FindRowKey, rowPairJoints, insertJoint,
    List.find?, Joint.mk.injEq, abs_le, Except.map,
    Panel.RightEdge, Panel.BottomEdge, List.filter, max_def]

/-- C2: with the default configuration, CalculateLayout on the four specs of a
2x2 grid at exact panel-dimension offsets succeeds and returns exactly 3
joints — the shared seam point (44.7, 71.1) contributed by both rows is
deduplicated to one entry — and (44.7, 71.1) is among the returned joints. -/
theorem C2_theorem :
    ∃ r, CalculateLayout defaultConfig 20 specs2x2 = .ok r ∧
      r.joints.length = 3 ∧ Joint.mk 44.7 71.1 ∈ r.joints := by
  have h := layout2x2_joints_eval
  cases hr : CalculateLayout defaultConfig 20 specs2x2 with
  | error e => rw [hr] at h; exact absurd h (by simp [Except.map])
  | ok r =>
      rw [hr] at h
      simp only [Except.map, Except.ok.injEq] at h
      exact ⟨r, rfl, by rw [h]; rfl, by rw [h]; simp⟩

/-- C4: an adjacent pair of a row contributes no joints exactly when its gap
reaches the horizontal gap threshold, and contributes its top and bottom seam
joints when the gap is strictly below the threshold; with the default
threshold 1.0, two same-row panels at gap exactly 1.0 give an empty joint
list, while gap 0.7 gives a non-empty one. -/
theorem C4_theorem :
    (∀ (js : JointSettings) (row_key : ℚ) (left right : Panel),
        js.horizontal_gap_threshold ≤ right.x - left.RightEdge →
        rowPairJoints js row_key left right = []) ∧
    (∀ (js : JointSettings) (row_key : ℚ) (left right : Panel),
        right.x - left.RightEdge < js.horizontal_gap_threshold →
        rowPairJoints js row_key left right =
          [⟨roundTo4 ((left.RightEdge + right.x) / 2), roundTo4 row_key⟩,
           ⟨roundTo4 ((left.RightEdge + right.x) / 2), roundTo4 (row_key + left.height)⟩]) ∧
    CalculateJoints defaultConfig.joints [⟨0, 0, 44.7, 71.1⟩, ⟨45.7, 0, 44.7, 71.1⟩] = [] ∧
    CalculateJoints defaultConfig.joints [⟨0, 0, 44.7, 71.1⟩, ⟨45.4, 0, 44.7, 71.1⟩] ≠ [] := by
  refine ⟨?_, ?_, ?_, ?_⟩
  · intro js row_key left right h
    unfold rowPairJoints
    rw [if_pos h]
  · intro js row_key left right h
    unfold rowPairJoints
    rw [if_neg (not_le.mpr h)]
  · norm_num [CalculateJoints, buildRowMap, addToRow, FindRowKey, rowPairJoints,
      insertJoint, List.insertionSort, List.orderedInsert, panelByX, jointYX,
      defaultConfig, List.find?, abs_le, roundTo4, round_eq,
      Panel.RightEdge, Joint.mk.injEq]
  · have hjoints : CalculateJoints defaultConfig.joints
        [⟨0, 0, 44.7, 71.1⟩, ⟨45.4, 0, 44.7, 71.1⟩] = [⟨45.05, 0⟩, ⟨45.05, 71.1⟩] := by
      norm_num [CalculateJoints, buildRowMap, addToRow, FindRowKey, rowPairJoints,
        insertJoint, List.insertionSort, List.orderedInsert, panelByX, jointYX,
        defaultConfig, List.find?, abs_le, roundTo4, round_eq,
        Panel.RightEdge, Joint.mk.injEq]
    rw [hjoints]
    simp

/-- C4 (witness): the first part of the C4 theorem applied to the concrete
pair at gap exactly 1.0 on row key 0. -/
theorem C4_witness :
    rowPairJoints defaultConfig.joints 0 ⟨0, 0, 44.7, 71.1⟩ ⟨45.7, 0, 44.7, 71.1⟩ = [] :=
  C4_theorem.1 _ _ _ _ (by norm_num [Panel.RightEdge, defaultConfig])

/-- C10: on a panel list with fewer than two panels, CalculateJoints returns
the empty joint list (and, being a total function, raises nothing). -/
theorem C10_theorem : ∀ (js : JointSettings) (panels : List Panel),
    panels.length < 2 → CalculateJoints js panels = [] := by
  intro js panels h
  match panels with
  | [] => simp [CalculateJoints, buildRowMap]
  | [p] =>
      simp [CalculateJoints, buildRowMap, addToRow, FindRowKey, List.insertionSort,
        List.orderedInsert, List.find?]
  | a :: b :: t => simp only [List.length_cons] at h; omega

/-- C10 (witness): the C10 theorem applied to a concrete single panel. -/
theorem C10_witness : CalculateJoints defaultConfig.joints [⟨0, 0, 44.7, 71.1⟩] = [] :=
  C10_theorem _ _ (by simp)

/-- Evaluation of BuildGrid with the default spacing 16 and clearance 2 over
the extent of one default panel at x = 0. -/
lemma gridDefault_eval : BuildGrid 16 2 20 0 44.7 = .ok ⟨[-30, -14, 2, 18, 34, 50, 66]⟩ := by
  norm_num [BuildGrid, descendLoop, ascendLoop, roundTo4, round_eq]

/-- C6 (counterexample): with spacing 1/100000 (positive) and extent [0, 0],
BuildGrid succeeds yet its positions [0, 0, 0, 0] carry duplicates - the
per-position rounding to 4 decimal places collapses consecutive positions. -/
theorem C6_counterexample :
    BuildGrid (1/100000) 0 10 0 0 = .ok ⟨[0, 0, 0, 0]⟩ ∧ ¬ ([(0:ℚ), 0, 0, 0].Nodup) :=
  ⟨gridTiny_eval, by simp⟩

/-- C6 (amended): for spacing > 0, every grid BuildGrid returns has positions
sorted non-decreasing; when moreover spacing ≥ 1/10000 (the rounding
granularity), the positions are strictly increasing, hence duplicate-free. -/
theorem C6_theorem : ∀ (s ec : ℚ) (fuel : ℕ) (mn mx : ℚ) (g : RafterGrid),
    0 < s → BuildGrid s ec fuel mn mx = .ok g →
    g.positions.Sorted (· ≤ ·) ∧ (1/10000 ≤ s → g.positions.Sorted (· < ·)) := by
  intro s ec fuel mn mx g hs h
  obtain ⟨-, f, -, ha⟩ := BuildGrid_ok_inv h
  exact ⟨(ascendLoop_some_sorted_le hs fuel f g.positions ha).1,
    fun hs4 => (ascendLoop_some_sorted_lt hs4 fuel f g.positions ha).1⟩

/-- C6 (witness): the C6 theorem applied to the default-configuration grid
over the extent [0, 44.7]. -/
theorem C6_witness : ∃ g, BuildGrid 16 2 20 0 44.7 = .ok g ∧
    g.positions.Sorted (· ≤ ·) ∧ (1/10000 ≤ (16:ℚ) → g.positions.Sorted (· < ·)) :=
  ⟨⟨[-30, -14, 2, 18, 34, 50, 66]⟩, gridDefault_eval,
    C6_theorem 16 2 20 0 44.7 ⟨[-30, -14, 2, 18, 34, 50, 66]⟩ (by norm_num) gridDefault_eval⟩

/-- C8 (counterexample): with spacing 1/100000 > 0, clearance 0 ≥ 0 and extent
[0, 0], the returned grid contains no rafter strictly left of min_x = 0: all
four positions round up to exactly 0. -/
theorem C8_counterexample :
    BuildGrid (1/100000) 0 10 0 0 = .ok ⟨[0, 0, 0, 0]⟩ ∧
    ([(0:ℚ), 0, 0, 0].all (fun v => decide (0 ≤ v)) = true) :=
  ⟨gridTiny_eval, by simp⟩

/-- C8 (amended): for spacing > 0, clearance ≥ 0 and min_x ≤ max_x, both
BuildGrid loops terminate within an explicit fuel, the backward loop's result
(the first position before rounding) lies in (min_x - 2*spacing,
min_x - spacing], BuildGrid succeeds with a non-empty grid, and - when
spacing ≥ 1/10000, the rounding granularity - the grid contains a rafter
strictly left of min_x. -/
theorem C8_theorem : ∀ (s ec mn mx : ℚ), 0 < s → 0 ≤ ec → mn ≤ mx →
    ∃ (fuel : ℕ) (f : ℚ) (ps : List ℚ),
      descendLoop s mn fuel (mn + ec) = some f ∧
      mn - s * 2 < f ∧ f ≤ mn - s ∧
      ascendLoop s (mx + s * 2) fuel f = some ps ∧
      BuildGrid s ec fuel mn mx = .ok ⟨ps⟩ ∧
      ps ≠ [] ∧
      (1/10000 ≤ s → ∃ v ∈ ps, v < mn) := by
  intro s ec mn mx hs hec hmn
  have hs0 : s ≠ 0 := ne_of_gt hs
  set a : ℤ := ⌈(ec + s)/s⌉ with ha_def
  set b : ℤ := ⌈(mx - mn + 4*s)/s⌉ with hb_def
  have hann : (0:ℤ) ≤ a := Int.ceil_nonneg (div_nonneg (by linarith) (le_of_lt hs))
  have hbnn : (0:ℤ) ≤ b := Int.ceil_nonneg (div_nonneg (by linarith) (le_of_lt hs))
  have hacast : ((a.toNat : ℕ) : ℚ) = ((a : ℤ) : ℚ) := by exact_mod_cast Int.toNat_of_nonneg hann
  have hbcast : ((b.toNat : ℕ) : ℚ) = ((b : ℤ) : ℚ) := by exact_mod_cast Int.toNat_of_nonneg hbnn
  have h1 : ec + s ≤ ((a.toNat : ℕ) : ℚ) * s := by
    have hc : (ec + s)/s ≤ ((a : ℤ) : ℚ) := Int.le_ceil _
    have := mul_le_mul_of_nonneg_right hc (le_of_lt hs)
    rw [div_mul_cancel₀ _ hs0] at this
    rw [hacast]
    exact this
  have h2 : mx - mn + 4*s ≤ ((b.toNat : ℕ) : ℚ) * s := by
    have hc : (mx - mn + 4*s)/s ≤ ((b : ℤ) : ℚ) := Int.le_ceil _
    have := mul_le_mul_of_nonneg_right hc (le_of_lt hs)
    rw [div_mul_cancel₀ _ hs0] at this
    rw [hbcast]
    exact this
  have hbpos : (0:ℚ) ≤ ((b.toNat : ℕ) : ℚ) * s :=
    mul_nonneg (Nat.cast_nonneg _) (le_of_lt hs)
  have hapos : (0:ℚ) ≤ ((a.toNat : ℕ) : ℚ) * s :=
    mul_nonneg (Nat.cast_nonneg _) (le_of_lt hs)
  obtain ⟨f, hd, hf1, hf2⟩ := @descendLoop_total s mn hs (a.toNat + b.toNat) (mn + ec)
    (by push_cast; push_cast at h1 h2 hbpos hapos; linarith) (by linarith)
  obtain ⟨ps, hasc⟩ := @ascendLoop_total s (mx + s * 2) hs (a.toNat + b.toNat) f
    (by push_cast; push_cast at h1 h2 hbpos hapos; linarith)
  have hbg : BuildGrid s ec (a.toNat + b.toNat) mn mx = .ok ⟨ps⟩ := by
    unfold BuildGrid
    rw [if_neg (not_lt.mpr hmn)]
    simp only [hd, hasc]
  obtain ⟨rest, hps⟩ := ascendLoop_some_head hasc (by linarith)
  refine ⟨a.toNat + b.toNat, f, ps, hd, hf1, hf2, hasc, hbg, by rw [hps]; simp, ?_⟩
  intro hs4
  refine ⟨roundTo4 f, by rw [hps]; exact List.mem_cons_self _ _, ?_⟩
  have := roundTo4_le f
  linarith

/-- C8 (witness): the C8 theorem applied to the default spacing 16, clearance
2 and the extent [0, 44.7] of a single default panel at the origin. -/
theorem C8_witness :
    ∃ (fuel : ℕ) (f : ℚ) (ps : List ℚ),
      descendLoop 16 0 fuel (0 + 2) = some f ∧
      (0:ℚ) - 16 * 2 < f ∧ f ≤ 0 - 16 ∧
      ascendLoop 16 (44.7 + 16 * 2) fuel f = some ps ∧
      BuildGrid 16 2 fuel 0 44.7 = .ok ⟨ps⟩ ∧
      ps ≠ [] ∧
      (1/10000 ≤ (16:ℚ) → ∃ v ∈ ps, v < 0) :=
  C8_theorem 16 2 0 44.7 (by norm_num) (by norm_num) (by norm_num)

/-! Shape of successful mount computations. -/

lemma CalculatePanelMounts_ok_shape {ms : MountSettings} {p : Panel} {grid : RafterGrid}
    {pm : List Mount} (h : CalculatePanelMounts ms p grid = .ok pm) :
    pm = panelMounts ms grid p := by
  unfold CalculatePanelMounts at h
  split at h
  · exact absurd h (by simp)
  · rename_i r0 rest heq
    split at h
    · exact absurd h (by simp)
    · split at h
      · exact absurd h (by simp)
      · split at h
        · exact absurd h (by simp)
        · unfold panelMounts
          rw [heq]
          exact (Except.ok.inj h).symm

lemma CalculateMounts_ok_shape {ms : MountSettings} {grid : RafterGrid} :
    ∀ {panels : List Panel} {ml : List Mount},
      CalculateMounts ms panels grid = .ok ml → ml = panels.flatMap (panelMounts ms grid) := by
  intro panels
  induction panels with
  | nil =>
      intro ml h
      unfold CalculateMounts at h
      simpa using (Except.ok.inj h).symm
  | cons p rest ih =>
      intro ml h
      unfold CalculateMounts at h
      split at h
      · exact absurd h (by simp)
      · rename_i pm hpm
        split at h
        · exact absurd h (by simp)
        · rename_i more hmore
          rw [List.flatMap_cons, ← CalculatePanelMounts_ok_shape hpm, ← ih hmore]
          exact (Except.ok.inj h).symm

/-! Inversion of a successful detailed layout run. -/

lemma CalculateLayoutDetailed_ok_inv {config : LayoutConfig} {fuel : ℕ}
    {specs : List PanelSpec} {ctx : LayoutContext}
    (h : CalculateLayoutDetailed config fuel specs = .ok ctx) :
    ∃ p rest grid mounts,
      BuildPanels ⟨config.panel.width, config.panel.height⟩ config.validation specs
          = .ok (p :: rest) ∧
      BuildGrid config.rafters.spacing config.rafters.edge_clearance fuel
          (rest.foldl (fun m q => min m q.x) p.x)
          (rest.foldl (fun m q => max m q.RightEdge) p.RightEdge) = .ok grid ∧
      CalculateMounts config.mounts (p :: rest) grid = .ok mounts ∧
      ctx = ⟨⟨mounts, CalculateJoints config.joints (p :: rest)⟩, p :: rest, grid.positions⟩ := by
  unfold CalculateLayoutDetailed at h
  split at h
  · exact absurd h (by simp)
  · exact absurd h (by simp)
  · rename_i p rest hbp
    split at h
    · exact absurd h (by simp)
    · rename_i grid hbg
      split at h
      · exact absurd h (by simp)
      · rename_i mounts hcm
        exact ⟨p, rest, grid, mounts, hbp, hbg, hcm, (Except.ok.inj h).symm⟩

/-- C3: on every successful CalculateLayoutDetailed run, every mount's x is
one of the returned rafter positions, and every mount's y is the y (top edge)
or y + height (BottomEdge) of some returned panel. -/
theorem C3_theorem : ∀ (config : LayoutConfig) (fuel : ℕ) (specs : List PanelSpec)
    (ctx : LayoutContext), CalculateLayoutDetailed config fuel specs = .ok ctx →
    ∀ m ∈ ctx.result.mounts, m.x ∈ ctx.rafters ∧
      ∃ p ∈ ctx.panels, m.y = p.y ∨ m.y = p.y + p.height := by
  intro config fuel specs ctx h m hm
  obtain ⟨p, rest, grid, mounts, hbp, hbg, hcm, hctx⟩ := CalculateLayoutDetailed_ok_inv h
  subst hctx
  simp only at hm ⊢
  rw [CalculateMounts_ok_shape hcm, List.mem_flatMap] at hm
  obtain ⟨q, hq, hmq⟩ := hm
  unfold panelMounts at hmq
  rcases List.mem_append.mp hmq with hmem | hmem <;>
    obtain ⟨v, hv, hveq⟩ := List.mem_map.mp hmem <;> subst hveq
  · exact ⟨List.mem_of_mem_filter hv, q, hq, Or.inl rfl⟩
  · exact ⟨List.mem_of_mem_filter hv, q, hq, Or.inr rfl⟩

/-- C3 (witness): the C3 theorem applied to the single default panel at the
origin, whose detailed run is evaluated explicitly. -/
theorem C3_witness :
    ∃ ctx, CalculateLayoutDetailed defaultConfig 20 [spec 0 0] = .ok ctx ∧
      ∀ m ∈ ctx.result.mounts, m.x ∈ ctx.rafters ∧
        ∃ p ∈ ctx.panels, m.y = p.y ∨ m.y = p.y + p.height := by
  have h : CalculateLayoutDetailed defaultConfig 20 [spec 0 0] =
      .ok ⟨⟨[⟨2, 0⟩, ⟨18, 0⟩, ⟨34, 0⟩, ⟨2, 71.1⟩, ⟨18, 71.1⟩, ⟨34, 71.1⟩], []⟩,
            [⟨0, 0, 44.7, 71.1⟩], [-30, -14, 2, 18, 34, 50, 66]⟩ := by
    norm_num [CalculateLayoutDetailed, BuildPanels, buildLoop, quantize,
      validateNoOverlap, findOverlap, RectanglesOverlap, defaultConfig, spec,
      List.insertionSort, List.orderedInsert, panelYX, panelByX, jointYX,
      BuildGrid, descendLoop, ascendLoop, roundTo4, round_eq,
      CalculateMounts, CalculatePanelMounts, RafterGrid.PositionsInRange,
      CalculateJoints, buildRowMap, addToRow, FindRowKey, rowPairJoints, insertJoint,
      List.find?, Joint.mk.injEq, abs_le,
      Panel.RightEdge, Panel.BottomEdge, List.filter, max_def]
  exact ⟨_, h, C3_theorem defaultConfig 20 [spec 0 0] _ h⟩

/-! No component other than the orchestrator's empty-list check can raise the
NoPanels condition. -/

lemma buildLoop_error_ne_noPanels {dims : PanelDimensions} {v : ValidationSettings} :
    ∀ {specs : List PanelSpec} {seen : List (ℤ × ℤ)} {e : LayoutError},
      buildLoop dims v specs seen = .error e → e ≠ .noPanels := by
  intro specs
  induction specs with
  | nil =>
      intro seen e h
      exact absurd h (by simp [buildLoop])
  | cons s rest ih =>
      intro seen e h
      unfold buildLoop at h
      split at h
      · split at h
        · obtain rfl := (Except.error.inj h)
          simp
        · split at h
          · split at h
            · rename_i heq
              obtain rfl := (Except.error.inj h)
              exact ih heq
            · exact absurd h (by simp)
          · split at h
            · obtain rfl := (Except.error.inj h)
              simp
            · split at h
              · rename_i heq
                obtain rfl := (Except.error.inj h)
                exact ih heq
              · exact absurd h (by simp)
      · obtain rfl := (Except.error.inj h)
        simp

lemma validateNoOverlap_error_ne_noPanels {tolerance : ℚ} :
    ∀ {l : List Panel} {e : LayoutError},
      validateNoOverlap tolerance l = .error e → e ≠ .noPanels := by
  intro l
  induction l with
  | nil =>
      intro e h
      exact absurd h (by simp [validateNoOverlap])
  | cons p rest ih =>
      intro e h
      unfold validateNoOverlap at h
      split at h
      · obtain rfl := (Except.error.inj h)
        simp
      · exact ih h

lemma BuildPanels_error_ne_noPanels {dims : PanelDimensions} {v : ValidationSettings}
    {specs : List PanelSpec} {e : LayoutError}
    (h : BuildPanels dims v specs = .error e) : e ≠ .noPanels := by
  unfold BuildPanels at h
  split at h
  · rename_i heq
    obtain rfl := (Except.error.inj h)
    exact buildLoop_error_ne_noPanels heq
  · split at h
    · rename_i heq
      obtain rfl := (Except.error.inj h)
      split at heq
      · exact absurd heq (by simp)
      · exact validateNoOverlap_error_ne_noPanels heq
    · exact absurd h (by simp)

lemma BuildGrid_error_ne_noPanels {s ec : ℚ} {fuel : ℕ} {mn mx : ℚ} {e : LayoutError}
    (h : BuildGrid s ec fuel mn mx = .error e) : e ≠ .noPanels := by
  unfold BuildGrid at h
  split at h
  · obtain rfl := (Except.error.inj h)
    simp
  · split at h
    · obtain rfl := (Except.error.inj h)
      simp
    · split at h
      · obtain rfl := (Except.error.inj h)
        simp
      · exact absurd h (by simp)

lemma CalculatePanelMounts_error_ne_noPanels {ms : MountSettings} {p : Panel}
    {grid : RafterGrid} {e : LayoutError}
    (h : CalculatePanelMounts ms p grid = .error e) : e ≠ .noPanels := by
  unfold CalculatePanelMounts at h
  split at h
  · obtain rfl := (Except.error.inj h)
    simp
  · split at h
    · obtain rfl := (Except.error.inj h)
      simp
    · split at h
      · obtain rfl := (Except.error.inj h)
        simp
      · split at h
        · obtain rfl := (Except.error.inj h)
          simp
        · exact absurd h (by simp)

lemma CalculateMounts_error_ne_noPanels {ms : MountSettings} {grid : RafterGrid} :
    ∀ {panels : List Panel} {e : LayoutError},
      CalculateMounts ms panels grid = .error e → e ≠ .noPanels := by
  intro panels
  induction panels with
  | nil =>
      intro e h
      exact absurd h (by simp [CalculateMounts])
  | cons p rest ih =>
      intro e h
      unfold CalculateMounts at h
      split at h
      · rename_i heq
        obtain rfl := (Except.error.inj h)
        exact CalculatePanelMounts_error_ne_noPanels heq
      · split at h
        · rename_i heq
          obtain rfl := (Except.error.inj h)
          exact ih heq
        · exact absurd h (by simp)

/-- C7: a detailed layout run raises the NoPanels condition exactly when the
validated panel list is empty; on every non-empty validated panel list that
error never appears (later stages only raise other conditions). -/
theorem C7_theorem : ∀ (config : LayoutConfig) (fuel : ℕ) (specs : List PanelSpec),
    CalculateLayoutDetailed config fuel specs = .error .noPanels ↔
    BuildPanels ⟨config.panel.width, config.panel.height⟩ config.validation specs = .ok [] := by
  intro config fuel specs
  constructor
  · intro h
    unfold CalculateLayoutDetailed at h
    split at h
    · rename_i heq
      obtain rfl := (Except.error.inj h)
      exact absurd rfl (BuildPanels_error_ne_noPanels heq)
    · assumption
    · split at h
      · rename_i heq
        obtain rfl := (Except.error.inj h)
        exact absurd rfl (BuildGrid_error_ne_noPanels heq)
      · split at h
        · rename_i heq
          obtain rfl := (Except.error.inj h)
          exact absurd rfl (CalculateMounts_error_ne_noPanels heq)
        · exact absurd h (by simp)
  · intro h
    unfold CalculateLayoutDetailed
    rw [h]

/-- C7 (witness): the C7 theorem applied to the empty spec sequence under the
default configuration. -/
theorem C7_witness : CalculateLayoutDetailed defaultConfig 20 [] = .error .noPanels :=
  (C7_theorem defaultConfig 20 []).mpr rfl

/-! Successful runs force a positive rafter spacing. -/

lemma spacing_pos_of_ok {config : LayoutConfig} {fuel : ℕ} {specs : List PanelSpec}
    {ctx : LayoutContext} (h : CalculateLayoutDetailed config fuel specs = .ok ctx) :
    0 < config.rafters.spacing := by
  by_contra hns
  push_neg at hns
  obtain ⟨p, rest, grid, mounts, hbp, hbg, hcm, hctx⟩ := CalculateLayoutDetailed_ok_inv h
  have hempty : grid.positions = [] := BuildGrid_nonpos_empty hns hbg
  have hrange : grid.PositionsInRange (p.x + config.mounts.edge_clearance)
      (p.RightEdge - config.mounts.edge_clearance) = [] := by
    rw [RafterGrid.PositionsInRange, hempty]
    rfl
  unfold CalculateMounts at hcm
  split at hcm
  · exact absurd hcm (by simp)
  · rename_i pm hpm
    unfold CalculatePanelMounts at hpm
    rw [hrange] at hpm
    exact absurd hpm (by simp)

lemma BuildPanels_ok_sorted {dims : PanelDimensions} {v : ValidationSettings}
    {specs : List PanelSpec} {ps : List Panel}
    (h : BuildPanels dims v specs = .ok ps) : ps.Sorted panelYX := by
  unfold BuildPanels at h
  split at h
  · exact absurd h (by simp)
  · split at h
    · exact absurd h (by simp)
    · obtain rfl := (Except.ok.inj h).symm
      exact List.sorted_insertionSort panelYX _

/-- Evaluation of the two-across scenario (gap exactly 1.0): the twelve
mounts, panel by panel, and the empty joint list. -/
lemma layoutTwoAcross_eval :
    CalculateLayout defaultConfig 20 specsTwoAcross =
      .ok ⟨[⟨2, 0⟩, ⟨18, 0⟩, ⟨34, 0⟩, ⟨2, 71.1⟩, ⟨18, 71.1⟩, ⟨34, 71.1⟩,
            ⟨50, 0⟩, ⟨66, 0⟩, ⟨82, 0⟩, ⟨50, 71.1⟩, ⟨66, 71.1⟩, ⟨82, 71.1⟩], []⟩ := by
  norm_num [CalculateLayout, CalculateLayoutDetailed, BuildPanels, buildLoop, quantize,
    validateNoOverlap, findOverlap, RectanglesOverlap, defaultConfig, spec, specsTwoAcross,
    List.insertionSort, List.orderedInsert, panelYX, panelByX, jointYX,
    BuildGrid, descendLoop, ascendLoop, roundTo4, round_eq,
    CalculateMounts, CalculatePanelMounts, RafterGrid.PositionsInRange,
    CalculateJoints, buildRowMap, addToRow, FindRowKey, rowPairJoints, insertJoint,
    List.find?, Joint.mk.injEq, abs_le,
    Panel.RightEdge, Panel.BottomEdge, List.filter, max_def]

/-- C9: on every successful run the mounts sequence is the concatenation, in
the sorted (y, x) panel order, of each panel's block of top-edge mounts
followed by its bottom-edge mounts, each block listing the selected rafters
in non-decreasing x; and on the concrete two-across input the overall mounts
sequence is not sorted by (y, x). -/
theorem C9_theorem :
    (∀ (config : LayoutConfig) (fuel : ℕ) (specs : List PanelSpec) (ctx : LayoutContext),
        CalculateLayoutDetailed config fuel specs = .ok ctx →
        ctx.result.mounts = ctx.panels.flatMap (panelMounts config.mounts ⟨ctx.rafters⟩) ∧
        ctx.panels.Sorted panelYX ∧
        ∀ p ∈ ctx.panels,
          (RafterGrid.PositionsInRange ⟨ctx.rafters⟩ (p.x + config.mounts.edge_clearance)
            (p.RightEdge - config.mounts.edge_clearance)).Sorted (· ≤ ·)) ∧
    (∃ r, CalculateLayout defaultConfig 20 specsTwoAcross = .ok r ∧
        ¬ r.mounts.Sorted mountYX) := by
  constructor
  · intro config fuel specs ctx h
    have hspos := spacing_pos_of_ok h
    obtain ⟨p, rest, grid, mounts, hbp, hbg, hcm, hctx⟩ := CalculateLayoutDetailed_ok_inv h
    have hgsorted := BuildGrid_ok_sorted_le hspos hbg
    subst hctx
    refine ⟨CalculateMounts_ok_shape hcm, BuildPanels_ok_sorted hbp, ?_⟩
    intro q hq
    exact List.Pairwise.filter _ hgsorted
  · refine ⟨_, layoutTwoAcross_eval, ?_⟩
    intro hsort
    simp only [List.sorted_cons] at hsort
    have h4 := hsort.2.2.2.1 ⟨50, 0⟩ (by simp)
    unfold mountYX at h4
    norm_num at h4

/-- Evaluation of the single default panel at the origin, detailed form. -/
lemma layoutOne_eval :
    CalculateLayoutDetailed defaultConfig 20 [spec 0 0] =
      .ok ⟨⟨[⟨2, 0⟩, ⟨18, 0⟩, ⟨34, 0⟩, ⟨2, 71.1⟩, ⟨18, 71.1⟩, ⟨34, 71.1⟩], []⟩,
            [⟨0, 0, 44.7, 71.1⟩], [-30, -14, 2, 18, 34, 50, 66]⟩ := by
  norm_num [CalculateLayoutDetailed, BuildPanels, buildLoop, quantize,
    validateNoOverlap, findOverlap, RectanglesOverlap, defaultConfig, spec,
    List.insertionSort, List.orderedInsert, panelYX, panelByX, jointYX,
    BuildGrid, descendLoop, ascendLoop, roundTo4, round_eq,
    CalculateMounts, CalculatePanelMounts, RafterGrid.PositionsInRange,
    CalculateJoints, buildRowMap, addToRow, FindRowKey, rowPairJoints, insertJoint,
    List.find?, Joint.mk.injEq, abs_le,
    Panel.RightEdge, Panel.BottomEdge, List.filter, max_def]

/-- C9 (witness): the first part of the C9 theorem applied to the single
default panel at the origin. -/
theorem C9_witness :
    ∃ ctx, CalculateLayoutDetailed defaultConfig 20 [spec 0 0] = .ok ctx ∧
      (ctx.result.mounts = ctx.panels.flatMap (panelMounts defaultConfig.mounts ⟨ctx.rafters⟩) ∧
       ctx.panels.Sorted panelYX ∧
       ∀ p ∈ ctx.panels,
         (RafterGrid.PositionsInRange ⟨ctx.rafters⟩ (p.x + defaultConfig.mounts.edge_clearance)
           (p.RightEdge - defaultConfig.mounts.edge_clearance)).Sorted (· ≤ ·)) :=
  ⟨_, layoutOne_eval, C9_theorem.1 defaultConfig 20 [spec 0 0] _ layoutOne_eval⟩

/-! Permutation invariance of panel building. -/

lemma buildLoop_cons_eq {dims : PanelDimensions} {v : ValidationSettings} {s : PanelSpec}
    {rest : List PanelSpec} {seen : List (ℤ × ℤ)} {xv yv : ℚ}
    (hx : s.x = some xv) (hy : s.y = some yv)
    (hneg : ¬(v.allow_negative_coordinates = false ∧
        (xv < -v.coordinate_tolerance ∨ yv < -v.coordinate_tolerance))) :
    buildLoop dims v (s :: rest) seen =
      (if v.allow_duplicates then
        match buildLoop dims v rest seen with
        | .error e => .error e
        | .ok ps => .ok (⟨xv, yv, dims.width, dims.height⟩ :: ps)
      else if quantize v.coordinate_tolerance xv yv ∈ seen then
        .error (.duplicatePanel xv yv)
      else
        match buildLoop dims v rest (quantize v.coordinate_tolerance xv yv :: seen) with
        | .error e => .error e
        | .ok ps => .ok (⟨xv, yv, dims.width, dims.height⟩ :: ps)) := by
  rw [buildLoop.eq_def]
  simp only [hx, hy]
  rw [if_neg hneg]

lemma buildLoop_seen_congr {dims : PanelDimensions} {v : ValidationSettings} :
    ∀ (specs : List PanelSpec) (seen₁ seen₂ : List (ℤ × ℤ)),
      (∀ k, k ∈ seen₁ ↔ k ∈ seen₂) →
      buildLoop dims v specs seen₁ = buildLoop dims v specs seen₂ := by
  intro specs
  induction specs with
  | nil => intro _ _ _; rfl
  | cons s rest ih =>
      intro seen₁ seen₂ hmem
      cases hx : s.x with
      | none =>
          unfold buildLoop
          simp only [hx]
      | some xv =>
          cases hy : s.y with
          | none =>
              unfold buildLoop
              simp only [hx, hy]
          | some yv =>
              unfold buildLoop
              simp only [hx, hy]
              by_cases hneg : v.allow_negative_coordinates = false ∧
                  (xv < -v.coordinate_tolerance ∨ yv < -v.coordinate_tolerance)
              · rw [if_pos hneg, if_pos hneg]
              · rw [if_neg hneg, if_neg hneg]
                by_cases hdup : v.allow_duplicates = true
                · rw [if_pos hdup, if_pos hdup, ih seen₁ seen₂ hmem]
                · rw [if_neg hdup, if_neg hdup]
                  by_cases hin : quantize v.coordinate_tolerance xv yv ∈ seen₁
                  · rw [if_pos hin, if_pos ((hmem _).mp hin)]
                  · rw [if_neg hin, if_neg (fun hc => hin ((hmem _).mpr hc)),
                      ih (quantize v.coordinate_tolerance xv yv :: seen₁)
                        (quantize v.coordinate_tolerance xv yv :: seen₂)
                        (fun k => by simp [hmem k])]

lemma buildLoop_perm {dims : PanelDimensions} {v : ValidationSettings}
    {specs₁ specs₂ : List PanelSpec} (hperm : specs₁.Perm specs₂) :
    ∀ {seen : List (ℤ × ℤ)} {ps₁ : List Panel},
      buildLoop dims v specs₁ seen = .ok ps₁ →
      ∃ ps₂, buildLoop dims v specs₂ seen = .ok ps₂ ∧ ps₂.Perm ps₁ := by
  induction hperm with
  | nil =>
      intro seen ps₁ h
      exact ⟨ps₁, h, List.Perm.refl _⟩
  | cons x hl ih =>
      intro seen ps₁ h
      unfold buildLoop at h
      split at h
      · rename_i xv yv hxx hxy
        split at h
        · exact absurd h (by simp)
        · rename_i hneg
          split at h
          · rename_i hdup
            split at h
            · exact absurd h (by simp)
            · rename_i ps' heq'
              obtain rfl := Except.ok.inj h
              obtain ⟨ps₂', h₂, hp⟩ := ih heq'
              refine ⟨⟨xv, yv, dims.width, dims.height⟩ :: ps₂', ?_, hp.cons _⟩
              rw [buildLoop_cons_eq hxx hxy hneg, if_pos hdup, h₂]
          · rename_i hdup
            split at h
            · exact absurd h (by simp)
            · rename_i hnin
              split at h
              · exact absurd h (by simp)
              · rename_i ps' heq'
                obtain rfl := Except.ok.inj h
                obtain ⟨ps₂', h₂, hp⟩ := ih heq'
                refine ⟨⟨xv, yv, dims.width, dims.height⟩ :: ps₂', ?_, hp.cons _⟩
                rw [buildLoop_cons_eq hxx hxy hneg, if_neg hdup, if_neg hnin, h₂]
      · exact absurd h (by simp)
  | swap x y l =>
      intro seen ps₁ h
      unfold buildLoop at h
      split at h
      · rename_i ya yb hyx hyy
        split at h
        · exact absurd h (by simp)
        · rename_i hnegY
          split at h
          · rename_i hdup
            split at h
            · exact absurd h (by simp)
            · rename_i ps' heq'
              unfold buildLoop at heq'
              split at heq'
              · rename_i xa xb hxx hxy
                split at heq'
                · exact absurd heq' (by simp)
                · rename_i hnegX
                  split at heq'
                  · exact absurd heq' (by simp)
                  · rename_i ps'' heq''
                    obtain rfl := Except.ok.inj heq'
                    obtain rfl := Except.ok.inj h
                    refine ⟨⟨xa, xb, dims.width, dims.height⟩ ::
                        ⟨ya, yb, dims.width, dims.height⟩ :: ps'', ?_, List.Perm.swap _ _ _⟩
                    rw [buildLoop_cons_eq hxx hxy hnegX, if_pos hdup,
                        buildLoop_cons_eq hyx hyy hnegY, if_pos hdup, heq'']
              · exact absurd heq' (by simp)
          · rename_i hdup
            split at h
            · exact absurd h (by simp)
            · rename_i hKYn
              split at h
              · exact absurd h (by simp)
              · rename_i ps' heq'
                unfold buildLoop at heq'
                split at heq'
                · rename_i xa xb hxx hxy
                  split at heq'
                  · exact absurd heq' (by simp)
                  · rename_i hnegX
                    split at heq'
                    · exact absurd heq' (by simp)
                    · rename_i hKXn
                      split at heq'
                      · exact absurd heq' (by simp)
                      · rename_i ps'' heq''
                        obtain rfl := Except.ok.inj heq'
                        obtain rfl := Except.ok.inj h
                        have hKXn' : quantize v.coordinate_tolerance xa xb ∉ seen :=
                          fun hc => hKXn (List.mem_cons_of_mem _ hc)
                        have hne : quantize v.coordinate_tolerance xa xb ≠
                            quantize v.coordinate_tolerance ya yb :=
                          fun hc => hKXn (by rw [hc]; exact List.mem_cons_self _ _)
                        have hKYn' : quantize v.coordinate_tolerance ya yb ∉
                            quantize v.coordinate_tolerance xa xb :: seen := by
                          intro hc
                          rcases List.mem_cons.mp hc with hc | hc
                          · exact hne hc.symm
                          · exact hKYn hc
                        refine ⟨⟨xa, xb, dims.width, dims.height⟩ ::
                            ⟨ya, yb, dims.width, dims.height⟩ :: ps'', ?_, List.Perm.swap _ _ _⟩
                        rw [buildLoop_cons_eq hxx hxy hnegX, if_neg hdup, if_neg hKXn',
                          buildLoop_cons_eq hyx hyy hnegY, if_neg hdup, if_neg hKYn',
                          buildLoop_seen_congr l
                            (quantize v.coordinate_tolerance ya yb ::
                              quantize v.coordinate_tolerance xa xb :: seen)
                            (quantize v.coordinate_tolerance xa xb ::
                              quantize v.coordinate_tolerance ya yb :: seen)
                            (fun k => by simp only [List.mem_cons]; tauto),
                          heq'']
                · exact absurd heq' (by simp)
      · exact absurd h (by simp)
  | trans h₁ h₂ ih₁ ih₂ =>
      intro seen ps₁ h
      obtain ⟨ps₂, hb₂, hp₂⟩ := ih₁ h
      obtain ⟨ps₃, hb₃, hp₃⟩ := ih₂ hb₂
      exact ⟨ps₃, hb₃, hp₃.trans hp₂⟩

lemma findOverlap_eq_none_iff {tolerance : ℚ} {p : Panel} :
    ∀ {l : List Panel}, findOverlap tolerance p l = none ↔
      ∀ q ∈ l, RectanglesOverlap tolerance p q = false := by
  intro l
  induction l with
  | nil => simp [findOverlap]
  | cons q rest ih =>
      unfold findOverlap
      by_cases hq : RectanglesOverlap tolerance p q = true
      · rw [if_pos hq]
        simp [hq]
      · rw [if_neg hq]
        rw [Bool.not_eq_true] at hq
        simp [ih, hq]

lemma validateNoOverlap_ok_iff {tolerance : ℚ} :
    ∀ {l : List Panel}, validateNoOverlap tolerance l = .ok () ↔
      l.Pairwise (fun a b => RectanglesOverlap tolerance a b = false) := by
  intro l
  induction l with
  | nil => simp [validateNoOverlap]
  | cons p rest ih =>
      unfold validateNoOverlap
      rw [List.pairwise_cons]
      cases hf : findOverlap tolerance p rest with
      | some q =>
          constructor
          · intro h
            exact absurd h (by simp)
          · rintro ⟨hall, -⟩
            have hnone : findOverlap tolerance p rest = none :=
              findOverlap_eq_none_iff.mpr hall
            rw [hnone] at hf
            exact absurd hf (by simp)
      | none =>
          rw [ih]
          constructor
          · intro h
            exact ⟨findOverlap_eq_none_iff.mp hf, h⟩
          · rintro ⟨-, h⟩
            exact h

lemma RectanglesOverlap_symm (tolerance : ℚ) (a b : Panel) :
    RectanglesOverlap tolerance a b = RectanglesOverlap tolerance b a := by
  unfold RectanglesOverlap
  rw [show (decide (a.RightEdge ≤ b.x + tolerance ∨ b.RightEdge ≤ a.x + tolerance)) =
      (decide (b.RightEdge ≤ a.x + tolerance ∨ a.RightEdge ≤ b.x + tolerance)) from
      decide_eq_decide.mpr or_comm,
    show (decide (a.BottomEdge ≤ b.y + tolerance ∨ b.BottomEdge ≤ a.y + tolerance)) =
      (decide (b.BottomEdge ≤ a.y + tolerance ∨ a.BottomEdge ≤ b.y + tolerance)) from
      decide_eq_decide.mpr or_comm]

lemma buildLoop_ok_dims {dims : PanelDimensions} {v : ValidationSettings} :
    ∀ {specs : List PanelSpec} {seen : List (ℤ × ℤ)} {ps : List Panel},
      buildLoop dims v specs seen = .ok ps →
      ∀ p ∈ ps, p.width = dims.width ∧ p.height = dims.height := by
  intro specs
  induction specs with
  | nil =>
      intro seen ps h
      obtain rfl := Except.ok.inj h
      simp
  | cons s rest ih =>
      intro seen ps h
      unfold buildLoop at h
      split at h
      · split at h
        · exact absurd h (by simp)
        · split at h
          · split at h
            · exact absurd h (by simp)
            · rename_i ps' heq'
              obtain rfl := Except.ok.inj h
              intro p hp
              rcases List.mem_cons.mp hp with hp | hp
              · subst hp
                exact ⟨rfl, rfl⟩
              · exact ih heq' p hp
          · split at h
            · exact absurd h (by simp)
            · split at h
              · exact absurd h (by simp)
              · rename_i ps' heq'
                obtain rfl := Except.ok.inj h
                intro p hp
                rcases List.mem_cons.mp hp with hp | hp
                · subst hp
                  exact ⟨rfl, rfl⟩
                · exact ih heq' p hp
      · exact absurd h (by simp)

lemma panelYX_antisymm_dims {a b : Panel} (hw : a.width = b.width)
    (hh : a.height = b.height) (h1 : panelYX a b) (h2 : panelYX b a) : a = b := by
  unfold panelYX at h1 h2
  have hy : a.y = b.y := by
    rcases h1 with h1' | ⟨h1y, -⟩
    · rcases h2 with h2' | ⟨h2y, -⟩
      · exact absurd h1' (by linarith)
      · exact h2y.symm
    · exact h1y
  have hx : a.x = b.x := by
    rcases h1 with h1' | ⟨-, h1x⟩
    · exact absurd h1' (by linarith)
    · rcases h2 with h2' | ⟨-, h2x⟩
      · exact absurd h2' (by linarith)
      · exact le_antisymm h1x h2x
  cases a
  cases b
  simp only [Panel.mk.injEq]
  exact ⟨hx, hy, hw, hh⟩

lemma sorted_perm_dims_eq {W H : ℚ} :
    ∀ (l₁ l₂ : List Panel), l₁.Perm l₂ → l₁.Sorted panelYX → l₂.Sorted panelYX →
      (∀ p ∈ l₁, p.width = W ∧ p.height = H) → l₁ = l₂ := by
  intro l₁
  induction l₁ with
  | nil =>
      intro l₂ hp _ _ _
      exact (hp.symm.eq_nil).symm
  | cons a t ih =>
      intro l₂ hp hs₁ hs₂ hdims
      cases l₂ with
      | nil => exact absurd hp.eq_nil (by simp)
      | cons b t₂ =>
          have hab : a = b := by
            have hamem : a ∈ b :: t₂ := hp.mem_iff.mp (List.mem_cons_self a t)
            have hbmem : b ∈ a :: t := hp.mem_iff.mpr (List.mem_cons_self b t₂)
            rcases List.mem_cons.mp hamem with h | h
            · exact h
            · rcases List.mem_cons.mp hbmem with h' | h'
              · exact h'.symm
              · have r1 : panelYX a b := List.rel_of_sorted_cons hs₁ b h'
                have r2 : panelYX b a := List.rel_of_sorted_cons hs₂ a h
                have hda := hdims a (List.mem_cons_self a t)
                have hdb := hdims b (List.mem_cons_of_mem a h')
                exact panelYX_antisymm_dims (by rw [hda.1, hdb.1]) (by rw [hda.2, hdb.2]) r1 r2
          subst hab
          have ht : t.Perm t₂ := hp.cons_inv
          rw [ih t₂ ht (List.sorted_cons.mp hs₁).2 (List.sorted_cons.mp hs₂).2
            (fun p hp' => hdims p (List.mem_cons_of_mem a hp'))]

lemma BuildPanels_perm {dims : PanelDimensions} {v : ValidationSettings}
    {specs₁ specs₂ : List PanelSpec} {ps : List Panel}
    (hperm : specs₁.Perm specs₂) (h : BuildPanels dims v specs₁ = .ok ps) :
    BuildPanels dims v specs₂ = .ok ps := by
  unfold BuildPanels at h ⊢
  split at h
  · exact absurd h (by simp)
  · rename_i raw₁ heq₁
    obtain ⟨raw₂, heq₂, hrp⟩ := buildLoop_perm hperm heq₁
    have hsorteq : List.insertionSort panelYX raw₂ = List.insertionSort panelYX raw₁ := by
      refine @sorted_perm_dims_eq dims.width dims.height _ _
        ((List.perm_insertionSort panelYX raw₂).trans
          (hrp.trans (List.perm_insertionSort panelYX raw₁).symm))
        (List.sorted_insertionSort panelYX raw₂) (List.sorted_insertionSort panelYX raw₁) ?_
      intro p hp
      exact buildLoop_ok_dims heq₂ p ((List.perm_insertionSort panelYX raw₂).mem_iff.mp hp)
    split at h
    · rename_i u hval₁
      exact absurd h (by simp)
    · rename_i u hval₁
      cases u
      obtain rfl := Except.ok.inj h
      have hval₂ : (if v.allow_overlaps = true then Except.ok ()
          else validateNoOverlap v.coordinate_tolerance raw₂) = (.ok () : Except LayoutError Unit) := by
        by_cases hov : v.allow_overlaps = true
        · rw [if_pos hov]
        · rw [if_neg hov]
          rw [if_neg hov] at hval₁
          rw [validateNoOverlap_ok_iff] at hval₁ ⊢
          rw [hrp.pairwise_iff
            (fun hxy => by rw [RectanglesOverlap_symm] at hxy; exact hxy)]
          exact hval₁
      rw [heq₂]
      simp only [hval₂]
      rw [hsorteq]

lemma CalculateLayoutDetailed_congr (config : LayoutConfig) (fuel : ℕ)
    {specs₁ specs₂ : List PanelSpec}
    (h : BuildPanels ⟨config.panel.width, config.panel.height⟩ config.validation specs₁ =
         BuildPanels ⟨config.panel.width, config.panel.height⟩ config.validation specs₂) :
    CalculateLayoutDetailed config fuel specs₁ = CalculateLayoutDetailed config fuel specs₂ := by
  unfold CalculateLayoutDetailed
  rw [h]

/-- C5: for any two spec lists that are permutations of each other, if both
are accepted by CalculateLayout then the two runs return the same joint set
(indeed the whole results coincide, since the validated, sorted panel list is
the same). -/
theorem C5_theorem : ∀ (config : LayoutConfig) (fuel : ℕ)
    (specs₁ specs₂ : List PanelSpec) (r₁ r₂ : LayoutResult), specs₁.Perm specs₂ →
    CalculateLayout config fuel specs₁ = .ok r₁ →
    CalculateLayout config fuel specs₂ = .ok r₂ → r₁.joints = r₂.joints := by
  intro config fuel specs₁ specs₂ r₁ r₂ hperm h₁ h₂
  unfold CalculateLayout at h₁ h₂
  split at h₁
  · exact absurd h₁ (by simp)
  · rename_i ctx₁ hd₁
    split at h₂
    · exact absurd h₂ (by simp)
    · rename_i ctx₂ hd₂
      obtain ⟨p, rest, grid, mounts, hbp, -, -, -⟩ := CalculateLayoutDetailed_ok_inv hd₁
      have hbp₂ := BuildPanels_perm hperm hbp
      have hcongr := CalculateLayoutDetailed_congr config fuel (hbp.trans hbp₂.symm)
      rw [hcongr] at hd₁
      obtain rfl : ctx₁ = ctx₂ := Except.ok.inj (hd₁.symm.trans hd₂)
      obtain rfl : ctx₁.result = r₁ := Except.ok.inj h₁
      obtain rfl : ctx₁.result = r₂ := Except.ok.inj h₂
      rfl

/-- Evaluation of the two-across scenario given in swapped input order: the
result is identical to the unswapped run. -/
lemma layoutTwoAcrossSwapped_eval :
    CalculateLayout defaultConfig 20 specsTwoAcrossSwapped =
      .ok ⟨[⟨2, 0⟩, ⟨18, 0⟩, ⟨34, 0⟩, ⟨2, 71.1⟩, ⟨18, 71.1⟩, ⟨34, 71.1⟩,
            ⟨50, 0⟩, ⟨66, 0⟩, ⟨82, 0⟩, ⟨50, 71.1⟩, ⟨66, 71.1⟩, ⟨82, 71.1⟩], []⟩ := by
  norm_num [CalculateLayout, CalculateLayoutDetailed, BuildPanels, buildLoop, quantize,
    validateNoOverlap, findOverlap, RectanglesOverlap, defaultConfig, spec,
    specsTwoAcrossSwapped, Prod.ext_iff, Prod.fst_zero, Prod.snd_zero,
    List.insertionSort, List.orderedInsert, panelYX, panelByX, jointYX,
    BuildGrid, descendLoop, ascendLoop, roundTo4, round_eq,
    CalculateMounts, CalculatePanelMounts, RafterGrid.PositionsInRange,
    CalculateJoints, buildRowMap, addToRow, FindRowKey, rowPairJoints, insertJoint,
    List.find?, Joint.mk.injEq, abs_le,
    Panel.RightEdge, Panel.BottomEdge, List.filter, max_def]

/-- C5 (witness): the C5 theorem applied to the two-across pair and its
left-right swap, both runs evaluated concretely. -/
theorem C5_witness :
    specsTwoAcross.Perm specsTwoAcrossSwapped ∧
    (∃ r₁ r₂, CalculateLayout defaultConfig 20 specsTwoAcross = .ok r₁ ∧
      CalculateLayout defaultConfig 20 specsTwoAcrossSwapped = .ok r₂ ∧
      r₁.joints = r₂.joints) := by
  have hperm : specsTwoAcross.Perm specsTwoAcrossSwapped :=
    List.Perm.swap (spec 45.7 0) (spec 0 0) []
  exact ⟨hperm, ⟨_, _, layoutTwoAcross_eval, layoutTwoAcrossSwapped_eval,
    C5_theorem defaultConfig 20 specsTwoAcross specsTwoAcrossSwapped _ _ hperm
      layoutTwoAcross_eval layoutTwoAcrossSwapped_eval⟩⟩
